/-
  Verification of the tryton_mono repository against its specification.

  Shallow embedding of:
  * `product.py` — the accounting fields on product categories/templates
    (`Template.get_account`, `Template.get_taxes`, the `missing_account`
    error message, and the two category-tax migration hooks).
  * `tryton/gui/window/view_form/view/form_gtk/dictionary.py` — the GTK
    dictionary widget (`DICT_ENTRIES`, `DictWidget.add_line`,
    `DictWidget._sig_remove`, `DictWidget.add_new_keys`,
    `DictWidget.display`, and the numeric entries' `get_value`).
  * `trytond/trytond/tests/tools.py` — `activate_modules`.
-/
import Mathlib

namespace TrytonMono

/-! ### product.py : data model

`product.category` rows carry optional expense/revenue account references
and two many-to-many tax lists; `product.template` rows carry the same
plus the two booleans `account_category` and `taxes_category`, and a
(required, browsed) link to their category.  Account and tax records are
identified by their ids (`Nat`). -/

structure Category where
  account_expense : Option Nat
  account_revenue : Option Nat
  customer_taxes : List Nat
  supplier_taxes : List Nat
deriving Repr, DecidableEq

structure Template where
  id : Nat
  name : String
  account_category : Bool
  account_expense : Option Nat
  account_revenue : Option Nat
  taxes_category : Bool
  customer_taxes : List Nat
  supplier_taxes : List Nat
  category : Category
deriving Repr, DecidableEq

/-- `product[name]` for the two account columns used by `get_account`
(after the `name = name[:-5]` strip). Any other name has no account
column. -/
def Template.accountField (t : Template) : String → Option Nat
  | "account_expense" => t.account_expense
  | "account_revenue" => t.account_revenue
  | _ => none

/-- `product.category[name]` for the two account columns. -/
def Category.accountField (c : Category) : String → Option Nat
  | "account_expense" => c.account_expense
  | "account_revenue" => c.account_revenue
  | _ => none

/-- `product[name]` for the two tax lists used by `get_taxes`
(after the `name = name[:-5]` strip). -/
def Template.taxField (t : Template) : String → List Nat
  | "customer_taxes" => t.customer_taxes
  | "supplier_taxes" => t.supplier_taxes
  | _ => []

/-- `product.category[name]` for the two tax lists. -/
def Category.taxField (c : Category) : String → List Nat
  | "customer_taxes" => c.customer_taxes
  | "supplier_taxes" => c.supplier_taxes
  | _ => []

/-- The error messages registered by `Template.__init__` via
`self._error_messages.update({...})`: a single entry. -/
def Template.error_messages : List (String × String) :=
  [("missing_account",
    "There is no account expense/revenue defined on the product %s (%d)")]

/-- `Template.get_account`, per product.  `name` is the function-field
name (`account_expense_used` / `account_revenue_used`); the source does
`name = name[:-5]`, reads `product[name]`, falls back to
`product.category[name]`, and otherwise calls
`raise_user_error('missing_account', ...)` (modelled as `Except.error`). -/
def Template.get_account (t : Template) (name : String) :
    Except String Nat :=
  let name := name.dropRight 5
  match t.accountField name with
  | some a => Except.ok a
  | none =>
    match t.category.accountField name with
    | some a => Except.ok a
    | none => Except.error "missing_account"

/-- `Template.get_taxes`, per product.  `name` is the function-field name
(`customer_taxes_used` / `supplier_taxes_used`); the source does
`name = name[:-5]` and then branches only on `product.taxes_category`. -/
def Template.get_taxes (t : Template) (name : String) : List Nat :=
  let name := name.dropRight 5
  if t.taxes_category then
    t.category.taxField name
  else
    t.taxField name

/-- The account kind a `*_used` function field refers to. -/
inductive AccountKind where
  | expense
  | revenue
deriving Repr, DecidableEq

/-- Function-field name queried for each account kind. -/
def AccountKind.usedName : AccountKind → String
  | .expense => "account_expense_used"
  | .revenue => "account_revenue_used"

/-- The template's local account of a kind. -/
def Template.localAccount (t : Template) : AccountKind → Option Nat
  | .expense => t.account_expense
  | .revenue => t.account_revenue

/-- The category's account of a kind. -/
def Category.accountOf (c : Category) : AccountKind → Option Nat
  | .expense => c.account_expense
  | .revenue => c.account_revenue

/-- The tax kind a `*_taxes_used` function field refers to. -/
inductive TaxKind where
  | customer
  | supplier
deriving Repr, DecidableEq

/-- Function-field name queried for each tax kind. -/
def TaxKind.usedName : TaxKind → String
  | .customer => "customer_taxes_used"
  | .supplier => "supplier_taxes_used"

/-- The template's local tax list of a kind. -/
def Template.localTaxes (t : Template) : TaxKind → List Nat
  | .customer => t.customer_taxes
  | .supplier => t.supplier_taxes

/-- The category's tax list of a kind. -/
def Category.taxesOf (c : Category) : TaxKind → List Nat
  | .customer => c.customer_taxes
  | .supplier => c.supplier_taxes

/-- Modelled from the spec (for comparison only, NOT from the code): the
resolution rule the specification states for `account_<kind>_used` —
"if use-category flag is set, or no local value exists, resolve from the
parent category; otherwise use the local value", raising the domain error
if neither resolves. -/
def Template.get_account_spec_rule (t : Template) (k : AccountKind) :
    Except String Nat :=
  if t.account_category || (t.localAccount k).isNone then
    match t.category.accountOf k with
    | some a => Except.ok a
    | none => Except.error "missing_account"
  else
    match t.localAccount k with
    | some a => Except.ok a
    | none => Except.error "missing_account"

/-- Modelled from the spec (for comparison only, NOT from the code): the
rule the claim states for `<kind>_taxes_used` — the category's list when
the `taxes_category` flag is set or the local list is empty, the local
list otherwise. -/
def Template.get_taxes_spec_rule (t : Template) (k : TaxKind) : List Nat :=
  if t.taxes_category || (t.localTaxes k).isEmpty then
    t.category.taxesOf k
  else
    t.localTaxes k

/-! ### product.py : migration hooks

`CategoryCustomerTax.init` / `CategorySupplierTax.init` fix the 1.6
schema: when the relation table still has a `product` column they remove
its index, drop its foreign key and rename it to `category`.  A table
is modelled by its column names and the sets of columns carrying an
index / a foreign key; the hook also yields the ordered list of DDL
steps it executed. -/

structure TableState where
  columns : List String
  indexed : List String
  fkeys : List String
deriving Repr, DecidableEq

/-- `TableHandler.column_exist`. -/
def TableHandler.column_exist (t : TableState) (c : String) : Bool :=
  t.columns.contains c

/-- `TableHandler.index_action(c, action='remove')`. -/
def TableHandler.index_remove (t : TableState) (c : String) : TableState :=
  { t with indexed := t.indexed.filter (· ≠ c) }

/-- `TableHandler.drop_fk`. -/
def TableHandler.drop_fk (t : TableState) (c : String) : TableState :=
  { t with fkeys := t.fkeys.filter (· ≠ c) }

/-- `TableHandler.column_rename`. -/
def TableHandler.column_rename (t : TableState) (old new_ : String) :
    TableState :=
  { t with columns := t.columns.map (fun c => if c = old then new_ else c) }

/-- One DDL step performed by a migration hook. -/
inductive DDLStep where
  | index_remove (column : String)
  | drop_fk (column : String)
  | column_rename (old new_ : String)
deriving Repr, DecidableEq

/-- `CategoryCustomerTax.init`: the migration body before delegating to
the superclass, returning the new table state and the ordered DDL
steps taken. -/
def CategoryCustomerTax.init (t : TableState) :
    TableState × List DDLStep :=
  if TableHandler.column_exist t "product" then
    let t1 := TableHandler.index_remove t "product"
    let t2 := TableHandler.drop_fk t1 "product"
    let t3 := TableHandler.column_rename t2 "product" "category"
    (t3, [DDLStep.index_remove "product", DDLStep.drop_fk "product",
          DDLStep.column_rename "product" "category"])
  else
    (t, [])

/-- `CategorySupplierTax.init`: same body as `CategoryCustomerTax.init`
(the source duplicates it verbatim). -/
def CategorySupplierTax.init (t : TableState) :
    TableState × List DDLStep :=
  if TableHandler.column_exist t "product" then
    let t1 := TableHandler.index_remove t "product"
    let t2 := TableHandler.drop_fk t1 "product"
    let t3 := TableHandler.column_rename t2 "product" "category"
    (t3, [DDLStep.index_remove "product", DDLStep.drop_fk "product",
          DDLStep.column_rename "product" "category"])
  else
    (t, [])

/-! ### dictionary.py : the dictionary widget

`DictWidget` keeps three per-key dicts (`self.fields` mapping a key to
its entry sub-widget, `self.buttons` to its remove button, `self.rows`
to its row widgets), the schema `self.field.keys`, and the id of the
record last displayed.  Keys are strings; the client value of the dict
field is an association list over an abstract value type `V`; decoded
domains are an abstract type `D` with an abstract evaluator (the PYSON
decoder and `eval_domain` live outside this repository).  The per-key
`invalid` style classes set by `widget_class(widget.widget, 'invalid', b)`
are modelled as an association list `String × Bool`.  The entry
sub-widgets' own contents (`set_value` / `set_readonly`) are not part of
the model. -/

/-- A schema entry of `self.field.keys[key]`: its `type_`, its label
`string` and its optional PYSON `domain`. -/
structure KeyDef where
  type_ : String
  label : String
  domain : Option String
deriving Repr, DecidableEq

/-- The entry classes of dictionary.py. -/
inductive DictEntryKind where
  | DictEntry
  | DictBooleanEntry
  | DictSelectionEntry
  | DictDateTimeEntry
  | DictDateEntry
  | DictIntegerEntry
  | DictFloatEntry
  | DictNumericEntry
deriving Repr, DecidableEq

/-- The `DICT_ENTRIES` mapping; a type outside it has no entry class
(indexing raises `KeyError`, modelled as `none`). -/
def DICT_ENTRIES : String → Option DictEntryKind
  | "char" => some DictEntryKind.DictEntry
  | "boolean" => some DictEntryKind.DictBooleanEntry
  | "selection" => some DictEntryKind.DictSelectionEntry
  | "datetime" => some DictEntryKind.DictDateTimeEntry
  | "date" => some DictEntryKind.DictDateEntry
  | "integer" => some DictEntryKind.DictIntegerEntry
  | "float" => some DictEntryKind.DictFloatEntry
  | "numeric" => some DictEntryKind.DictNumericEntry
  | _ => none

/-- Python dict read: first (only) binding of a key. -/
def lookupAssoc {α : Type} (l : List (String × α)) (k : String) : Option α :=
  (l.find? (fun p => p.1 == k)).map (·.2)

/-- Python dict write `d[k] = v`: replace the binding in place when the
key is present, append it otherwise. -/
def setAssoc {α : Type} : List (String × α) → String → α → List (String × α)
  | [], k, v => [(k, v)]
  | p :: l, k, v => if p.1 = k then (k, v) :: l else p :: setAssoc l k v

/-- Python dict write for a key-only dict (the value is not modelled). -/
def addKeyOnce (l : List String) (k : String) : List String :=
  if l.contains k then l else l ++ [k]

/-- Python's `x or y` for an optional string (`None` and `''` are falsy). -/
def pyOr (a : Option String) (b : String) : String :=
  match a with
  | some s => if s = "" then b else s
  | none => b

structure DictWidget (V : Type) where
  field_keys : List (String × KeyDef)
  fields : List (String × DictEntryKind)
  buttons : List String
  rows : List String
  record_id : Option Nat
  invalid : List (String × Bool)
deriving Repr, DecidableEq

/-- The widget as `DictWidget.__init__` leaves it: the three per-key
dicts empty and `_record_id = None` (the field, hence its schema, is not
attached yet). -/
def DictWidget.initState (V : Type) : DictWidget V :=
  { field_keys := [], fields := [], buttons := [], rows := [],
    record_id := none, invalid := [] }

/-- `DictWidget.add_line`: reads `self.field.keys[key]` (KeyError when
absent), instantiates `DICT_ENTRIES[key_schema['type_']]` (KeyError when
the type is outside the mapping) into `self.fields[key]`, builds the row
widgets into `self.rows[key]` and the remove button into
`self.buttons[key]`. -/
def DictWidget.add_line {V : Type} (w : DictWidget V) (key : String) :
    Option (DictWidget V) :=
  match lookupAssoc w.field_keys key with
  | none => none
  | some key_schema =>
    match DICT_ENTRIES key_schema.type_ with
    | none => none
    | some entry =>
      some { w with
        fields := setAssoc w.fields key entry,
        rows := addKeyOnce w.rows key,
        buttons := addKeyOnce w.buttons key }

/-- `DictWidget._sig_remove`: `del self.fields[key]`,
`del self.buttons[key]`, destroy the row widgets, `del self.rows[key]`
(the `modified` branch only emits signals). -/
def DictWidget.sig_remove {V : Type} (w : DictWidget V) (key : String) :
    DictWidget V :=
  { w with
    fields := w.fields.filter (fun p => p.1 ≠ key),
    buttons := w.buttons.filter (· ≠ key),
    rows := w.rows.filter (· ≠ key) }

/-- `DictWidget.add_new_keys` (after the server resolved the selected
ids to key names): `add_line` every name not already in `self.fields`. -/
def DictWidget.add_new_keys {V : Type} (w : DictWidget V)
    (new_keys : List String) : Option (DictWidget V) :=
  new_keys.foldlM
    (fun acc key_name =>
      if acc.fields.any (fun p => p.1 == key_name) then some acc
      else acc.add_line key_name)
    w

/-- The body of `DictWidget.display`'s main loop, for one
`(key, val)` of `sorted(value.items())`: skip keys outside
`self.field.keys`, `add_line` keys without a row yet, then set the
'invalid' style class from the key's domain (`.get('domain') or '[]'`,
decoded, evaluated against the whole `value`). -/
def DictWidget.displayStep {V D : Type} (value : List (String × V))
    (decode : String → D) (eval_domain : D → List (String × V) → Bool)
    (acc : DictWidget V) (kv : String × V) : Option (DictWidget V) :=
  match lookupAssoc acc.field_keys kv.1 with
  | none => some acc
  | some key_schema =>
    (if lookupAssoc acc.fields kv.1 ≠ none then some acc
     else acc.add_line kv.1).map
      (fun acc' =>
        let key_domain := decode (pyOr key_schema.domain "[]")
        { acc' with invalid :=
            setAssoc acc'.invalid kv.1 (! eval_domain key_domain value) })

/-- The opening of `DictWidget.display`: when the record id changed,
`_sig_remove` every existing row (with `modified=False`), then store the
new record id. -/
def DictWidget.displayPurge {V : Type} (w : DictWidget V)
    (record_id : Option Nat) : DictWidget V :=
  if record_id ≠ w.record_id then
    { ((w.fields.map (·.1)).foldl (fun acc k => acc.sig_remove k) w) with
      record_id := record_id }
  else w

/-- `display`'s schema extension: `self.field.add_keys` on the value's
key names missing from `self.field.keys` (when there are any); the
server yields a definition for the names `fetched` knows. -/
def DictWidget.displayAddKeys {V : Type} (w : DictWidget V)
    (value_keys : List String) (fetched : String → Option KeyDef) :
    DictWidget V :=
  let new_key_names :=
    value_keys.filter (fun k => (lookupAssoc w.field_keys k).isNone)
  if new_key_names.isEmpty then w
  else
    { w with field_keys := w.field_keys ++
        new_key_names.filterMap (fun n => (fetched n).map (fun d => (n, d))) }

/-- `display`'s closing loop: `_sig_remove` every displayed key that is
no longer among the value's keys. -/
def DictWidget.displayRemoveStale {V : Type} (w : DictWidget V)
    (value_keys : List String) : DictWidget V :=
  ((w.fields.map (·.1)).filter (fun k => ! value_keys.contains k)).foldl
    (fun acc k => acc.sig_remove k) w

/-- `DictWidget.display` (with a non-`None` field).  `record_id` is the
current record's id, `value = self.field.get_client(self.record)`,
`fetched` models what `self.field.add_keys` can obtain from the schema
model for a missing key name, `decode` the `PYSONDecoder` and
`eval_domain` the domain evaluator.  Steps, in source order: purge all
rows when the record id changed; extend the schema with the value's
unknown key names; walk `sorted(value.items())` adding/refreshing rows;
remove rows whose key left the value. -/
def DictWidget.display {V D : Type} (w : DictWidget V)
    (record_id : Option Nat) (value : List (String × V))
    (fetched : String → Option KeyDef) (decode : String → D)
    (eval_domain : D → List (String × V) → Bool) :
    Option (DictWidget V) :=
  let w2 := (w.displayPurge record_id).displayAddKeys (value.map (·.1)) fetched
  match (value.mergeSort (fun a b => decide (a.1 ≤ b.1))).foldlM
      (DictWidget.displayStep value decode eval_domain) w2 with
  | none => none
  | some w3 => some (w3.displayRemoveStale (value.map (·.1)))

/-! ### dictionary.py : numeric entries' `get_value`

`locale.atoi` / `locale.atof` raise on unparseable text; the entries
catch that (`ValueError`, resp. `decimal.InvalidOperation` for the
`Decimal` converter) and fall through to `None`.  The parsers are
abstract parameters returning `Except Unit α` (`Except.error` standing
for the raised exception); a numeric value type is abstract since the
entries never inspect it. -/

/-- `DictIntegerEntry.get_value`: `atoi` the entry text when non-empty,
`None` on empty text or `ValueError`. -/
def DictIntegerEntry.get_value {α : Type} (atoi : String → Except Unit α)
    (txt_value : String) : Option α :=
  if txt_value ≠ "" then
    match atoi txt_value with
    | Except.ok n => some n
    | Except.error _ => none
  else none

/-- `DictFloatEntry.get_value`: same shape over `locale.atof`. -/
def DictFloatEntry.get_value {α : Type} (atof : String → Except Unit α)
    (txt_value : String) : Option α :=
  if txt_value ≠ "" then
    match atof txt_value with
    | Except.ok n => some n
    | Except.error _ => none
  else none

/-- `DictNumericEntry.get_value`: same shape over
`locale.atof(_, Decimal)`, catching `decimal.InvalidOperation`. -/
def DictNumericEntry.get_value {α : Type} (atof_decimal : String → Except Unit α)
    (txt_value : String) : Option α :=
  if txt_value ≠ "" then
    match atof_decimal txt_value with
    | Except.ok n => some n
    | Except.error _ => none
  else none

/-! ### trytond/tests/tools.py : `activate_modules`

Modelled as the ordered trace of framework effects the function
performs; `restore_hit` tells whether `restore_db_cache(name)`
succeeded for a given name. -/

inductive Effect where
  | restore_db_cache (name : String)
  | drop_create
  | get_config
  | activate (modules : List String)
  | run_setup (qualname : String)
  | backup_db_cache (name : String)
deriving Repr, DecidableEq

/-- The cache name `activate_modules` computes:
`cache_file_name or '-'.join(modules)`, then `+= f'-{qualname}'` when a
setup function is supplied. -/
def cacheName (modules : List String) (setup_qualname : Option String)
    (cache_file_name : Option String) : String :=
  let base := pyOr cache_file_name (String.intercalate "-" modules)
  match setup_qualname with
  | some q => base ++ "-" ++ q
  | none => base

/-- `activate_modules` as its effect trace.  A setup function is
represented by its `__qualname__`; `modules` is already a list (the
`isinstance(modules, str)` branch wraps a bare string). -/
def activate_modules (modules : List String)
    (setup_qualname : Option String) (cache_file_name : Option String)
    (restore_hit : String → Bool) : List Effect :=
  let cache_name := cacheName modules setup_qualname cache_file_name
  if restore_hit cache_name then
    [Effect.restore_db_cache cache_name, Effect.get_config]
  else
    [Effect.restore_db_cache cache_name, Effect.drop_create,
     Effect.get_config, Effect.activate modules]
    ++ (match setup_qualname with
        | some q => [Effect.run_setup q]
        | none => [])
    ++ [Effect.backup_db_cache cache_name]

/-! ## Helper lemmas -/

lemma Template.get_account_usedName (t : Template) (k : AccountKind) :
    t.get_account k.usedName =
      (match t.localAccount k with
       | some a => Except.ok a
       | none =>
         match t.category.accountOf k with
         | some a => Except.ok a
         | none => Except.error "missing_account") := by
  cases k <;> rfl

lemma Template.get_taxes_usedName (t : Template) (k : TaxKind) :
    t.get_taxes k.usedName =
      if t.taxes_category then t.category.taxesOf k
      else t.localTaxes k := by
  cases k <;> rfl

/-! ## C1 -/

/-- A template with the use-category flag set AND a local expense
account differing from the category's. -/
def tmplC1 : Template :=
  { id := 42, name := "product A", account_category := true,
    account_expense := some 1, account_revenue := none,
    taxes_category := false, customer_taxes := [], supplier_taxes := [],
    category := { account_expense := some 2, account_revenue := none,
                  customer_taxes := [], supplier_taxes := [] } }

/-- C1 counterexample: on a template whose `account_category` flag is
set and whose local expense account (id 1) differs from the category's
(id 2), the claim resolves `account_expense_used` from the category
(id 2, as `get_account_spec_rule` computes), but `get_account` returns
the local account id 1: the flag is never consulted by `get_account`. -/
theorem C1_counterexample :
    tmplC1.account_category = true ∧
    tmplC1.category.accountOf AccountKind.expense = some 2 ∧
    Template.get_account tmplC1 AccountKind.expense.usedName =
      Except.ok 1 ∧
    Template.get_account tmplC1 AccountKind.expense.usedName ≠
      Except.ok 2 ∧
    Template.get_account_spec_rule tmplC1 AccountKind.expense =
      Except.ok 2 := by
  refine ⟨rfl, rfl, rfl, ?_, rfl⟩
  intro h
  exact absurd (Except.ok.inj h) (by decide)

/-- C1 (amended): `account_<kind>_used` resolves to the template's own
local account whenever one is set, and to the parent category's account
only when the template has no local account of that kind; the
`account_category` flag is not consulted. -/
theorem C1_account_used_local_first (t : Template) (k : AccountKind) :
    (∀ a, t.localAccount k = some a →
      t.get_account k.usedName = Except.ok a) ∧
    (t.localAccount k = none →
      ∀ a, t.category.accountOf k = some a →
        t.get_account k.usedName = Except.ok a) := by
  constructor
  · intro a ha
    rw [Template.get_account_usedName, ha]
  · intro h0 a ha
    rw [Template.get_account_usedName, h0, ha]

/-- `tmplC1` without its local expense account, and with category
expense account 9. -/
def tmplC1b : Template :=
  { tmplC1 with
    account_expense := none,
    category := { tmplC1.category with account_expense := some 9 } }

/-- C1 witness: the amended theorem applied to `tmplC1` (local expense
account 1 wins) and to `tmplC1b` with no local expense account (the
category's account 9 is used). -/
theorem C1_witness :
    Template.get_account tmplC1 AccountKind.expense.usedName =
      Except.ok 1 ∧
    Template.get_account tmplC1b AccountKind.expense.usedName =
      Except.ok 9 :=
  ⟨(C1_account_used_local_first tmplC1 AccountKind.expense).1 1 rfl,
   (C1_account_used_local_first tmplC1b AccountKind.expense).2 rfl 9 rfl⟩

/-! ## C2 -/

/-- A template with the `taxes_category` flag unset, an empty local
customer-tax list and a non-empty category customer-tax list. -/
def tmplC2 : Template :=
  { id := 43, name := "product B", account_category := false,
    account_expense := none, account_revenue := none,
    taxes_category := false, customer_taxes := [], supplier_taxes := [],
    category := { account_expense := none, account_revenue := none,
                  customer_taxes := [5], supplier_taxes := [] } }

/-- C2 counterexample: on a template whose `taxes_category` flag is
unset and whose local customer-tax list is empty, the claim resolves
`customer_taxes_used` from the category (`[5]`, as
`get_taxes_spec_rule` computes), but `get_taxes` returns the empty
local list: `get_taxes` branches only on the flag, never on whether the
local list is empty. -/
theorem C2_counterexample :
    tmplC2.taxes_category = false ∧
    tmplC2.localTaxes TaxKind.customer = [] ∧
    tmplC2.category.taxesOf TaxKind.customer = [5] ∧
    Template.get_taxes tmplC2 TaxKind.customer.usedName = [] ∧
    Template.get_taxes_spec_rule tmplC2 TaxKind.customer = [5] := by
  exact ⟨rfl, rfl, rfl, rfl, rfl⟩

/-- C2 (amended): `<kind>_taxes_used` equals the category's tax list
exactly when the template's `taxes_category` flag is set, and the
template's own local tax list otherwise — even when that local list is
empty. -/
theorem C2_taxes_used_flag_only (t : Template) (k : TaxKind) :
    (t.taxes_category = true →
      t.get_taxes k.usedName = t.category.taxesOf k) ∧
    (t.taxes_category = false →
      t.get_taxes k.usedName = t.localTaxes k) := by
  constructor
  · intro h
    rw [Template.get_taxes_usedName, h, if_pos rfl]
  · intro h
    rw [Template.get_taxes_usedName, h, if_neg Bool.false_ne_true]

/-- C2 witness: the amended theorem applied to `tmplC2` (flag unset,
empty local list returned) and to the same template with the flag set
(category list `[5]` returned). -/
theorem C2_witness :
    Template.get_taxes tmplC2 TaxKind.customer.usedName = [] ∧
    Template.get_taxes { tmplC2 with taxes_category := true }
      TaxKind.customer.usedName = [5] :=
  ⟨(C2_taxes_used_flag_only tmplC2 TaxKind.customer).2 rfl,
   (C2_taxes_used_flag_only _ TaxKind.customer).1 rfl⟩

/-! ## C3 -/

/-- C3: resolving `account_expense_used` / `account_revenue_used`
produces the `missing_account` user error exactly when neither the
template's local account nor its category's account of that kind is
set; in that case no account id is produced; `missing_account` is the
only error result `get_account` can yield and the only error message
the module registers. -/
theorem C3_missing_account_error (t : Template) (k : AccountKind) :
    (t.get_account k.usedName = Except.error "missing_account" ↔
      t.localAccount k = none ∧ t.category.accountOf k = none) ∧
    (t.localAccount k = none → t.category.accountOf k = none →
      ∀ a, t.get_account k.usedName ≠ Except.ok a) ∧
    (∀ e, t.get_account k.usedName = Except.error e →
      e = "missing_account") ∧
    Template.error_messages.map Prod.fst = ["missing_account"] := by
  refine ⟨?_, ?_, ?_, rfl⟩
  · rw [Template.get_account_usedName]
    cases ha : t.localAccount k <;> cases hc : t.category.accountOf k <;>
      simp
  · intro h0 h1 a
    rw [Template.get_account_usedName, h0, h1]
    simp
  · intro e he
    rw [Template.get_account_usedName] at he
    cases ha : t.localAccount k <;> cases hc : t.category.accountOf k <;>
      rw [ha, hc] at he <;> simp at he
    exact he.symm

/-- A template with neither a local nor a category expense account. -/
def tmplC3 : Template := { tmplC2 with name := "product C" }

/-- C3 witness: the theorem applied to `tmplC3`, which has neither a
local nor a category expense account: the error is raised and no
account id is produced. -/
theorem C3_witness :
    Template.get_account tmplC3 AccountKind.expense.usedName =
      Except.error "missing_account" ∧
    Template.get_account tmplC3 AccountKind.expense.usedName ≠
      Except.ok 7 :=
  ⟨(C3_missing_account_error tmplC3 AccountKind.expense).1.mpr ⟨rfl, rfl⟩,
   (C3_missing_account_error tmplC3 AccountKind.expense).2.1 rfl rfl 7⟩

/-! ## C4 -/

lemma no_product_after_rename (cols : List String) :
    (cols.map (fun c => if c = "product" then "category" else c)).contains
      "product" = false := by
  apply Bool.eq_false_iff.mpr
  intro hc
  rw [List.elem_iff] at hc
  obtain ⟨c, _, hfc⟩ := List.mem_map.mp hc
  split at hfc <;> simp_all

lemma customerTax_init_no_product (t : TableState) :
    TableHandler.column_exist (CategoryCustomerTax.init t).1 "product" =
      false := by
  by_cases h : TableHandler.column_exist t "product"
  · unfold CategoryCustomerTax.init
    rw [if_pos h]
    exact no_product_after_rename t.columns
  · unfold CategoryCustomerTax.init
    rw [if_neg h]
    simpa using h

lemma supplierTax_init_no_product (t : TableState) :
    TableHandler.column_exist (CategorySupplierTax.init t).1 "product" =
      false := by
  by_cases h : TableHandler.column_exist t "product"
  · unfold CategorySupplierTax.init
    rw [if_pos h]
    exact no_product_after_rename t.columns
  · unfold CategorySupplierTax.init
    rw [if_neg h]
    simpa using h

/-- C4: each of the two migration hooks renames the legacy `product`
column to `category` exactly when a `product` column exists, executing
index removal, foreign-key drop and the rename in that order; when no
`product` column exists it changes nothing; and a second run after a
successful first run alters nothing. -/
theorem C4_category_tax_migration (t : TableState) :
    (TableHandler.column_exist t "product" = true →
      CategoryCustomerTax.init t =
        ({ columns :=
             t.columns.map (fun c => if c = "product" then "category" else c),
           indexed := t.indexed.filter (· ≠ "product"),
           fkeys := t.fkeys.filter (· ≠ "product") },
         [DDLStep.index_remove "product", DDLStep.drop_fk "product",
          DDLStep.column_rename "product" "category"]) ∧
      CategorySupplierTax.init t =
        ({ columns :=
             t.columns.map (fun c => if c = "product" then "category" else c),
           indexed := t.indexed.filter (· ≠ "product"),
           fkeys := t.fkeys.filter (· ≠ "product") },
         [DDLStep.index_remove "product", DDLStep.drop_fk "product",
          DDLStep.column_rename "product" "category"])) ∧
    (TableHandler.column_exist t "product" = false →
      CategoryCustomerTax.init t = (t, []) ∧
      CategorySupplierTax.init t = (t, [])) ∧
    CategoryCustomerTax.init (CategoryCustomerTax.init t).1 =
      ((CategoryCustomerTax.init t).1, []) ∧
    CategorySupplierTax.init (CategorySupplierTax.init t).1 =
      ((CategorySupplierTax.init t).1, []) := by
  refine ⟨?_, ?_, ?_, ?_⟩
  · intro h
    refine ⟨?_, ?_⟩
    · unfold CategoryCustomerTax.init
      rw [if_pos h]
      rfl
    · unfold CategorySupplierTax.init
      rw [if_pos h]
      rfl
  · intro h
    refine ⟨?_, ?_⟩
    · unfold CategoryCustomerTax.init
      rw [if_neg (by simp [h])]
    · unfold CategorySupplierTax.init
      rw [if_neg (by simp [h])]
  · have h := customerTax_init_no_product t
    revert h
    generalize (CategoryCustomerTax.init t).1 = s
    intro h
    unfold CategoryCustomerTax.init
    rw [if_neg (by simp [h])]
  · have h := supplierTax_init_no_product t
    revert h
    generalize (CategorySupplierTax.init t).1 = s
    intro h
    unfold CategorySupplierTax.init
    rw [if_neg (by simp [h])]

/-- C4 witness: the theorem applied to a legacy table (a `product`
column with index and foreign key — all three DDL steps run, in order)
and, via the idempotence conjunct, to its migrated result (no step
runs). -/
theorem C4_witness :
    CategoryCustomerTax.init
        { columns := ["id", "product", "tax"], indexed := ["product"],
          fkeys := ["product", "tax"] } =
      ({ columns := ["id", "category", "tax"], indexed := [],
         fkeys := ["tax"] },
       [DDLStep.index_remove "product", DDLStep.drop_fk "product",
        DDLStep.column_rename "product" "category"]) ∧
    CategoryCustomerTax.init
        { columns := ["id", "category", "tax"], indexed := [],
          fkeys := ["tax"] } =
      ({ columns := ["id", "category", "tax"], indexed := [],
         fkeys := ["tax"] }, []) := by
  refine ⟨?_, ?_⟩
  · have h := (C4_category_tax_migration
      { columns := ["id", "product", "tax"], indexed := ["product"],
        fkeys := ["product", "tax"] }).1 (by decide)
    rw [h.1]
    decide
  · exact (C4_category_tax_migration
      { columns := ["id", "category", "tax"], indexed := [],
        fkeys := ["tax"] }).2.1 (by decide) |>.1

/-! ## Association-list lemmas for the widget model -/

lemma lookupAssoc_isSome_iff {α : Type} (l : List (String × α)) (k : String) :
    (lookupAssoc l k).isSome ↔ k ∈ l.map (·.1) := by
  induction l with
  | nil => simp [lookupAssoc]
  | cons p l ih =>
    by_cases h : p.1 = k
    · simp [lookupAssoc, List.find?_cons, h]
    · have h2 : (p.1 == k) = false := by simp [h]
      have h3 : ¬ k = p.1 := fun hh => h hh.symm
      simp [lookupAssoc, List.find?_cons, h2, h3]

lemma lookupAssoc_eq_none_iff {α : Type} (l : List (String × α)) (k : String) :
    lookupAssoc l k = none ↔ k ∉ l.map (·.1) := by
  rw [← lookupAssoc_isSome_iff]
  cases lookupAssoc l k <;> simp

lemma lookupAssoc_setAssoc_self {α : Type} (l : List (String × α))
    (k : String) (v : α) : lookupAssoc (setAssoc l k v) k = some v := by
  induction l with
  | nil => simp [setAssoc, lookupAssoc]
  | cons p l ih =>
    unfold setAssoc
    by_cases hp : p.1 = k
    · rw [if_pos hp]
      simp [lookupAssoc, List.find?_cons]
    · rw [if_neg hp]
      have hpk : (p.1 == k) = false := by simp [hp]
      simpa [lookupAssoc, List.find?_cons, hpk] using ih

lemma lookupAssoc_setAssoc_ne {α : Type} (l : List (String × α))
    (k : String) (v : α) (x : String) (hx : x ≠ k) :
    lookupAssoc (setAssoc l k v) x = lookupAssoc l x := by
  have hkx : (k == x) = false := by simp [Ne.symm hx]
  induction l with
  | nil =>
    show lookupAssoc [(k, v)] x = lookupAssoc [] x
    simp [lookupAssoc, List.find?_cons, hkx]
  | cons p l ih =>
    unfold setAssoc
    by_cases hp : p.1 = k
    · rw [if_pos hp]
      have hpx : (p.1 == x) = false := by simp [hp, Ne.symm hx]
      simp [lookupAssoc, List.find?_cons, hkx, hpx]
    · rw [if_neg hp]
      by_cases hpx : p.1 = x
      · simp [lookupAssoc, List.find?_cons, hpx]
      · have hpx2 : (p.1 == x) = false := by simp [hpx]
        simpa [lookupAssoc, List.find?_cons, hpx2] using ih

lemma mem_map_fst_setAssoc {α : Type} (l : List (String × α)) (k : String)
    (v : α) (x : String) :
    x ∈ (setAssoc l k v).map (·.1) ↔ x ∈ l.map (·.1) ∨ x = k := by
  induction l with
  | nil => simp [setAssoc]
  | cons p l ih =>
    unfold setAssoc
    by_cases hp : p.1 = k
    · rw [if_pos hp]
      simp [hp]
      tauto
    · rw [if_neg hp]
      simp [ih]
      tauto

lemma mem_addKeyOnce (l : List String) (k x : String) :
    x ∈ addKeyOnce l k ↔ x ∈ l ∨ x = k := by
  unfold addKeyOnce
  split
  · rename_i h
    rw [List.elem_iff] at h
    constructor
    · exact Or.inl
    · rintro (hx | rfl)
      · exact hx
      · exact h
  · simp

lemma lookupAssoc_append_left {α : Type} (l₁ l₂ : List (String × α))
    (k : String) (h : (lookupAssoc l₁ k).isSome) :
    lookupAssoc (l₁ ++ l₂) k = lookupAssoc l₁ k := by
  unfold lookupAssoc at h ⊢
  rw [List.find?_append]
  cases hf : l₁.find? (fun p => p.1 == k) with
  | none => rw [hf] at h; simp at h
  | some p => simp [hf]

/-! ## add_line characterization -/

lemma add_line_eq_some {V : Type} {w w' : DictWidget V} {key : String}
    (h : w.add_line key = some w') :
    ∃ d e, lookupAssoc w.field_keys key = some d ∧
      DICT_ENTRIES d.type_ = some e ∧
      w' = { w with
        fields := setAssoc w.fields key e,
        rows := addKeyOnce w.rows key,
        buttons := addKeyOnce w.buttons key } := by
  unfold DictWidget.add_line at h
  split at h
  · cases h
  · rename_i d hd
    split at h
    · cases h
    · rename_i e he
      exact ⟨d, e, hd, he, (Option.some.inj h).symm⟩

lemma add_line_eq_none_of_no_entry {V : Type} (w : DictWidget V)
    (key : String) (d : KeyDef) (hd : lookupAssoc w.field_keys key = some d)
    (he : DICT_ENTRIES d.type_ = none) : w.add_line key = none := by
  unfold DictWidget.add_line
  split
  · rfl
  · rename_i d2 hd2
    rw [hd] at hd2
    cases Option.some.inj hd2
    split
    · rfl
    · rename_i e he2
      rw [he] at he2
      exact Option.noConfusion he2

/-! ## C7 -/

/-- C7: `add_line` picks the entry class solely by looking the key's
declared type up in `DICT_ENTRIES`; that mapping holds exactly the eight
listed type/class pairs, a key whose type is outside them cannot be
given a row (`add_line` fails), and a successful `add_line` stores
exactly the mapped entry class for the key. -/
theorem C7_entry_class_selection {V : Type} :
    (∀ t e, DICT_ENTRIES t = some e ↔
      (t, e) ∈ [("char", DictEntryKind.DictEntry),
        ("boolean", DictEntryKind.DictBooleanEntry),
        ("selection", DictEntryKind.DictSelectionEntry),
        ("datetime", DictEntryKind.DictDateTimeEntry),
        ("date", DictEntryKind.DictDateEntry),
        ("integer", DictEntryKind.DictIntegerEntry),
        ("float", DictEntryKind.DictFloatEntry),
        ("numeric", DictEntryKind.DictNumericEntry)]) ∧
    (∀ (w : DictWidget V) key d, lookupAssoc w.field_keys key = some d →
      DICT_ENTRIES d.type_ = none → w.add_line key = none) ∧
    (∀ (w w' : DictWidget V) key, w.add_line key = some w' →
      ∃ d e, lookupAssoc w.field_keys key = some d ∧
        DICT_ENTRIES d.type_ = some e ∧
        lookupAssoc w'.fields key = some e) := by
  refine ⟨?_, ?_, ?_⟩
  · intro t e
    constructor
    · intro h
      unfold DICT_ENTRIES at h
      split at h <;> simp_all
    · intro h
      simp only [List.mem_cons, List.not_mem_nil, or_false] at h
      rcases h with h | h | h | h | h | h | h | h <;>
        · obtain ⟨rfl, rfl⟩ := Prod.mk.injEq .. ▸ h
          rfl
  · intro w key d hd he
    exact add_line_eq_none_of_no_entry w key d hd he
  · intro w w' key h
    obtain ⟨d, e, hd, he, rfl⟩ := add_line_eq_some h
    exact ⟨d, e, hd, he, lookupAssoc_setAssoc_self ..⟩

/-- A widget with an `integer`-typed key `a` and a key `b` whose type
`text` is outside `DICT_ENTRIES`. -/
def widgetC7 : DictWidget Nat :=
  { DictWidget.initState Nat with
    field_keys := [("a", { type_ := "integer", label := "A", domain := none }),
                   ("b", { type_ := "text", label := "B", domain := none })] }

/-- C7 witness: the theorem applied concretely — `integer` maps to
`DictIntegerEntry`, `add_line` on the `text`-typed key `b` fails, and
`add_line` on `a` stores a `DictIntegerEntry`. -/
theorem C7_witness :
    DICT_ENTRIES "integer" = some DictEntryKind.DictIntegerEntry ∧
    widgetC7.add_line "b" = none ∧
    (∃ d e, lookupAssoc widgetC7.field_keys "a" = some d ∧
      DICT_ENTRIES d.type_ = some e ∧
      ∀ w', widgetC7.add_line "a" = some w' →
        lookupAssoc w'.fields "a" = some e) := by
  refine ⟨?_, ?_, ?_⟩
  · exact (C7_entry_class_selection (V := Nat)).1 "integer"
      DictEntryKind.DictIntegerEntry |>.mpr (by simp)
  · exact (C7_entry_class_selection (V := Nat)).2.1 widgetC7 "b"
      { type_ := "text", label := "B", domain := none } rfl rfl
  · refine ⟨{ type_ := "integer", label := "A", domain := none },
      DictEntryKind.DictIntegerEntry, rfl, rfl, ?_⟩
    intro w' hw'
    obtain ⟨d, e, hd, he, hl⟩ :=
      (C7_entry_class_selection (V := Nat)).2.2 widgetC7 w' "a" hw'
    cases Option.some.inj hd
    cases Option.some.inj he
    exact hl

/-! ## Generic fold preservation lemmas -/

lemma foldlM_option_preserve {σ α : Type} (P : σ → Prop)
    (f : σ → α → Option σ)
    (hf : ∀ s a s', f s a = some s' → P s → P s') (l : List α) :
    ∀ s s', l.foldlM f s = some s' → P s → P s' := by
  induction l with
  | nil =>
    intro s s' h hs
    rw [List.foldlM_nil] at h
    exact (Option.some.inj h) ▸ hs
  | cons a l ih =>
    intro s s' h hs
    rw [List.foldlM_cons] at h
    cases hf1 : f s a with
    | none => rw [hf1] at h; cases h
    | some s1 =>
      rw [hf1] at h
      exact ih s1 s' h (hf s a s1 hf1 hs)

lemma foldl_preserve {σ α : Type} (P : σ → Prop) (f : σ → α → σ)
    (hf : ∀ s a, P s → P (f s a)) (l : List α) :
    ∀ s, P s → P (l.foldl f s) := by
  induction l with
  | nil =>
    intro s hs
    simpa using hs
  | cons a l ih =>
    intro s hs
    rw [List.foldl_cons]
    exact ih (f s a) (hf s a hs)

/-! ## Filter membership lemmas -/

lemma mem_map_fst_filter_ne {α : Type} (l : List (String × α))
    (r x : String) :
    x ∈ (l.filter (fun p => p.1 ≠ r)).map (·.1) ↔
      x ∈ l.map (·.1) ∧ x ≠ r := by
  constructor
  · intro hx
    obtain ⟨p, hp, rfl⟩ := List.mem_map.mp hx
    obtain ⟨hpl, hpr⟩ := List.mem_filter.mp hp
    exact ⟨List.mem_map_of_mem _ hpl, by simpa using hpr⟩
  · rintro ⟨hx, hxr⟩
    obtain ⟨p, hp, rfl⟩ := List.mem_map.mp hx
    exact List.mem_map_of_mem _ (List.mem_filter.mpr ⟨hp, by simpa using hxr⟩)

lemma mem_filter_ne (l : List String) (r x : String) :
    x ∈ l.filter (· ≠ r) ↔ x ∈ l ∧ x ≠ r := by
  simp [List.mem_filter]

/-! ## C8 : the three per-key maps stay aligned -/

/-- `self.fields`, `self.buttons` and `self.rows` hold exactly the same
key set. -/
def DictWidget.keysAligned {V : Type} (w : DictWidget V) : Prop :=
  (∀ k, k ∈ w.fields.map (·.1) ↔ k ∈ w.buttons) ∧
  (∀ k, k ∈ w.fields.map (·.1) ↔ k ∈ w.rows)

lemma keysAligned_add_line {V : Type} {w w' : DictWidget V} {key : String}
    (h : w.add_line key = some w') (hw : w.keysAligned) :
    w'.keysAligned := by
  obtain ⟨d, e, _, _, rfl⟩ := add_line_eq_some h
  constructor
  · intro k
    simp only [mem_map_fst_setAssoc, mem_addKeyOnce]
    rw [hw.1 k]
  · intro k
    simp only [mem_map_fst_setAssoc, mem_addKeyOnce]
    rw [hw.2 k]

lemma keysAligned_sig_remove {V : Type} (w : DictWidget V) (key : String)
    (hw : w.keysAligned) : (w.sig_remove key).keysAligned := by
  constructor
  · intro k
    rw [show (w.sig_remove key).fields =
          w.fields.filter (fun p => p.1 ≠ key) from rfl,
        show (w.sig_remove key).buttons =
          w.buttons.filter (· ≠ key) from rfl,
        mem_map_fst_filter_ne, mem_filter_ne, hw.1 k]
  · intro k
    rw [show (w.sig_remove key).fields =
          w.fields.filter (fun p => p.1 ≠ key) from rfl,
        show (w.sig_remove key).rows =
          w.rows.filter (· ≠ key) from rfl,
        mem_map_fst_filter_ne, mem_filter_ne, hw.2 k]

lemma keysAligned_displayStep {V D : Type} {value : List (String × V)}
    {decode : String → D} {ev : D → List (String × V) → Bool}
    {acc acc' : DictWidget V} {kv : String × V}
    (h : DictWidget.displayStep value decode ev acc kv = some acc')
    (hw : acc.keysAligned) : acc'.keysAligned := by
  unfold DictWidget.displayStep at h
  split at h
  · exact (Option.some.inj h) ▸ hw
  · rename_i d hd
    cases hif : (if lookupAssoc acc.fields kv.1 ≠ none then some acc
        else acc.add_line kv.1) with
    | none => rw [hif] at h; cases h
    | some acc0 =>
      rw [hif] at h
      have hal : acc0.keysAligned := by
        by_cases hin : lookupAssoc acc.fields kv.1 ≠ none
        · rw [if_pos hin] at hif
          exact (Option.some.inj hif) ▸ hw
        · rw [if_neg hin] at hif
          exact keysAligned_add_line hif hw
      have hacc := (Option.some.inj h).symm
      rw [hacc]
      exact ⟨hal.1, hal.2⟩

lemma keysAligned_displayPurge {V : Type} (w : DictWidget V)
    (rid : Option Nat) (hw : w.keysAligned) :
    (w.displayPurge rid).keysAligned := by
  unfold DictWidget.displayPurge
  split
  · have h := foldl_preserve DictWidget.keysAligned
      (fun acc k => acc.sig_remove k)
      (fun s a hs => keysAligned_sig_remove s a hs)
      (w.fields.map (·.1)) w hw
    exact ⟨h.1, h.2⟩
  · exact hw

lemma keysAligned_displayAddKeys {V : Type} (w : DictWidget V)
    (vk : List String) (fetched : String → Option KeyDef)
    (hw : w.keysAligned) : (w.displayAddKeys vk fetched).keysAligned := by
  simp only [DictWidget.displayAddKeys]
  split
  · exact hw
  · exact ⟨hw.1, hw.2⟩

lemma keysAligned_displayRemoveStale {V : Type} (w : DictWidget V)
    (vk : List String) (hw : w.keysAligned) :
    (w.displayRemoveStale vk).keysAligned :=
  foldl_preserve DictWidget.keysAligned (fun acc k => acc.sig_remove k)
    (fun s a hs => keysAligned_sig_remove s a hs) _ w hw

lemma keysAligned_display {V D : Type} {w w' : DictWidget V}
    {rid : Option Nat} {value : List (String × V)}
    {fetched : String → Option KeyDef} {decode : String → D}
    {ev : D → List (String × V) → Bool}
    (h : w.display rid value fetched decode ev = some w')
    (hw : w.keysAligned) : w'.keysAligned := by
  simp only [DictWidget.display] at h
  split at h
  · cases h
  · rename_i w3 hfold
    have h2 := keysAligned_displayAddKeys (w.displayPurge rid)
      (value.map (·.1)) fetched (keysAligned_displayPurge w rid hw)
    have h3 := foldlM_option_preserve DictWidget.keysAligned
      (DictWidget.displayStep value decode ev)
      (fun s a s' hs has => keysAligned_displayStep hs has)
      (value.mergeSort (fun a b => decide (a.1 ≤ b.1))) _ w3 hfold h2
    exact (Option.some.inj h) ▸
      keysAligned_displayRemoveStale w3 (value.map (·.1)) h3

lemma keysAligned_add_new_keys {V : Type} {w w' : DictWidget V}
    {new_keys : List String}
    (h : w.add_new_keys new_keys = some w') (hw : w.keysAligned) :
    w'.keysAligned := by
  unfold DictWidget.add_new_keys at h
  refine foldlM_option_preserve DictWidget.keysAligned _ ?_ new_keys w w'
    h hw
  intro s a s' hs has
  by_cases hmem : s.fields.any (fun p => p.1 == a)
  · rw [if_pos hmem] at hs
    exact (Option.some.inj hs) ▸ has
  · rw [if_neg hmem] at hs
    exact keysAligned_add_line hs has

/-- C8: the widget starts with the three per-key maps (`self.fields`,
`self.buttons`, `self.rows`) holding the same (empty) key set, and every
row-changing operation — `add_line`, `_sig_remove`, `add_new_keys` and
`display` — preserves that the three maps have exactly the same key
set. -/
theorem C8_per_key_maps_same_keys {V D : Type} :
    (DictWidget.initState V).keysAligned ∧
    (∀ (w w' : DictWidget V) key, w.add_line key = some w' →
      w.keysAligned → w'.keysAligned) ∧
    (∀ (w : DictWidget V) key, w.keysAligned →
      (w.sig_remove key).keysAligned) ∧
    (∀ (w w' : DictWidget V) new_keys, w.add_new_keys new_keys = some w' →
      w.keysAligned → w'.keysAligned) ∧
    (∀ (w w' : DictWidget V) rid value fetched (decode : String → D) ev,
      w.display rid value fetched decode ev = some w' →
      w.keysAligned → w'.keysAligned) := by
  refine ⟨⟨by simp [DictWidget.initState], by simp [DictWidget.initState]⟩,
    ?_, ?_, ?_, ?_⟩
  · intro w w' key h hw
    exact keysAligned_add_line h hw
  · intro w key hw
    exact keysAligned_sig_remove w key hw
  · intro w w' new_keys h hw
    exact keysAligned_add_new_keys h hw
  · intro w w' rid value fetched decode ev h hw
    exact keysAligned_display h hw

/-- A widget with the single `integer`-typed schema key `a` and no rows
yet. -/
def widgetC8 : DictWidget Nat :=
  { DictWidget.initState Nat with
    field_keys := [("a", { type_ := "integer", label := "A", domain := none })] }

/-- `widgetC8` after `add_line "a"`. -/
def widgetC8a : DictWidget Nat :=
  { widgetC8 with
    fields := [("a", DictEntryKind.DictIntegerEntry)],
    buttons := ["a"],
    rows := ["a"] }

/-- C8 witness: the theorem applied concretely — `add_line "a"` on an
aligned widget yields `widgetC8a`, which the theorem shows is aligned
again, and `_sig_remove` keeps it aligned. -/
theorem C8_witness :
    widgetC8.add_line "a" = some widgetC8a ∧
    widgetC8a.keysAligned ∧
    (widgetC8a.sig_remove "a").keysAligned := by
  have h0 : widgetC8.keysAligned :=
    ⟨fun k => by simp [widgetC8, DictWidget.initState],
     fun k => by simp [widgetC8, DictWidget.initState]⟩
  have h1 : widgetC8.add_line "a" = some widgetC8a := rfl
  have h2 := (C8_per_key_maps_same_keys (V := Nat) (D := Bool)).2.1
    widgetC8 widgetC8a "a" h1 h0
  exact ⟨h1, h2, (C8_per_key_maps_same_keys (V := Nat) (D := Bool)).2.2.1
    widgetC8a "a" h2⟩

/-! ## display phase lemmas (towards C5 and C6) -/

lemma foldl_sig_remove_field_keys {V : Type} (rs : List String) :
    ∀ w : DictWidget V,
      (rs.foldl (fun acc k => acc.sig_remove k) w).field_keys =
        w.field_keys := by
  induction rs with
  | nil => intro w; rfl
  | cons r rs ih =>
    intro w
    rw [List.foldl_cons]
    exact ih _

lemma foldl_sig_remove_invalid {V : Type} (rs : List String) :
    ∀ w : DictWidget V,
      (rs.foldl (fun acc k => acc.sig_remove k) w).invalid = w.invalid := by
  induction rs with
  | nil => intro w; rfl
  | cons r rs ih =>
    intro w
    rw [List.foldl_cons]
    exact ih _

lemma mem_fields_foldl_sig_remove {V : Type} (rs : List String) :
    ∀ (w : DictWidget V) (k : String),
      k ∈ ((rs.foldl (fun acc r => acc.sig_remove r) w).fields.map (·.1)) ↔
        (k ∈ w.fields.map (·.1) ∧ k ∉ rs) := by
  induction rs with
  | nil =>
    intro w k
    simp
  | cons r rs ih =>
    intro w k
    rw [List.foldl_cons, ih,
      show (w.sig_remove r).fields =
        w.fields.filter (fun p => p.1 ≠ r) from rfl,
      mem_map_fst_filter_ne]
    simp only [List.mem_cons]
    tauto

lemma displayPurge_field_keys {V : Type} (w : DictWidget V)
    (rid : Option Nat) : (w.displayPurge rid).field_keys = w.field_keys := by
  unfold DictWidget.displayPurge
  split
  · exact foldl_sig_remove_field_keys _ w
  · rfl

lemma displayPurge_invalid {V : Type} (w : DictWidget V)
    (rid : Option Nat) : (w.displayPurge rid).invalid = w.invalid := by
  unfold DictWidget.displayPurge
  split
  · exact foldl_sig_remove_invalid _ w
  · rfl

lemma mem_fields_displayPurge_subset {V : Type} (w : DictWidget V)
    (rid : Option Nat) (k : String)
    (h : k ∈ (w.displayPurge rid).fields.map (·.1)) :
    k ∈ w.fields.map (·.1) := by
  revert h
  unfold DictWidget.displayPurge
  split
  · intro h
    exact ((mem_fields_foldl_sig_remove _ w k).mp h).1
  · exact id

lemma displayAddKeys_fields {V : Type} (w : DictWidget V)
    (vk : List String) (fetched : String → Option KeyDef) :
    (w.displayAddKeys vk fetched).fields = w.fields := by
  simp only [DictWidget.displayAddKeys]
  split <;> rfl

lemma displayAddKeys_invalid {V : Type} (w : DictWidget V)
    (vk : List String) (fetched : String → Option KeyDef) :
    (w.displayAddKeys vk fetched).invalid = w.invalid := by
  simp only [DictWidget.displayAddKeys]
  split <;> rfl

lemma lookupAssoc_displayAddKeys_of_isSome {V : Type} (w : DictWidget V)
    (vk : List String) (fetched : String → Option KeyDef) (k : String)
    (h : (lookupAssoc w.field_keys k).isSome) :
    lookupAssoc (w.displayAddKeys vk fetched).field_keys k =
      lookupAssoc w.field_keys k := by
  simp only [DictWidget.displayAddKeys]
  split
  · rfl
  · exact lookupAssoc_append_left _ _ _ h

lemma mem_map_fst_mergeSort {V : Type} (value : List (String × V))
    (k : String) :
    k ∈ ((value.mergeSort (fun a b => decide (a.1 ≤ b.1))).map (·.1)) ↔
      k ∈ value.map (·.1) := by
  constructor <;> intro h <;> obtain ⟨p, hp, rfl⟩ := List.mem_map.mp h
  · exact List.mem_map_of_mem _ (List.mem_mergeSort.mp hp)
  · exact List.mem_map_of_mem _ (List.mem_mergeSort.mpr hp)

lemma nodup_map_fst_mergeSort {V : Type} (value : List (String × V))
    (h : (value.map (·.1)).Nodup) :
    ((value.mergeSort (fun a b => decide (a.1 ≤ b.1))).map (·.1)).Nodup := by
  have hp : (value.mergeSort (fun a b => decide (a.1 ≤ b.1))).Perm value :=
    List.mergeSort_perm value _
  exact ((hp.map (·.1)).nodup_iff).mpr h

lemma displayPurge_fields_nil {V : Type} (w : DictWidget V)
    (rid : Option Nat) (h : rid ≠ w.record_id) :
    (w.displayPurge rid).fields = [] := by
  unfold DictWidget.displayPurge
  rw [if_pos h]
  apply List.eq_nil_iff_forall_not_mem.mpr
  intro p hp
  have hk := List.mem_map_of_mem (·.1)
    (show p ∈ ((w.fields.map (·.1)).foldl
      (fun acc r => acc.sig_remove r) w).fields from hp)
  have h2 := (mem_fields_foldl_sig_remove _ w p.1).mp hk
  exact h2.2 h2.1

lemma displayStep_field_keys {V D : Type} {value : List (String × V)}
    {decode : String → D} {ev : D → List (String × V) → Bool}
    {acc acc' : DictWidget V} {kv : String × V}
    (h : DictWidget.displayStep value decode ev acc kv = some acc') :
    acc'.field_keys = acc.field_keys := by
  unfold DictWidget.displayStep at h
  split at h
  · rw [← Option.some.inj h]
  · rename_i d hd
    cases hif : (if lookupAssoc acc.fields kv.1 ≠ none then some acc
        else acc.add_line kv.1) with
    | none => rw [hif] at h; cases h
    | some acc0 =>
      rw [hif] at h
      have h2 := (Option.some.inj h).symm
      rw [h2]
      show acc0.field_keys = acc.field_keys
      by_cases hin : lookupAssoc acc.fields kv.1 ≠ none
      · rw [if_pos hin] at hif
        rw [← Option.some.inj hif]
      · rw [if_neg hin] at hif
        obtain ⟨d2, e2, _, _, rfl⟩ := add_line_eq_some hif
        rfl

lemma displayStep_mem_fields {V D : Type} {value : List (String × V)}
    {decode : String → D} {ev : D → List (String × V) → Bool}
    {acc acc' : DictWidget V} {kv : String × V}
    (h : DictWidget.displayStep value decode ev acc kv = some acc')
    (k : String) :
    k ∈ acc'.fields.map (·.1) ↔
      (k ∈ acc.fields.map (·.1) ∨
        (k = kv.1 ∧ (lookupAssoc acc.field_keys kv.1).isSome)) := by
  unfold DictWidget.displayStep at h
  split at h
  · rename_i hd
    rw [← Option.some.inj h, hd]
    simp
  · rename_i d hd
    cases hif : (if lookupAssoc acc.fields kv.1 ≠ none then some acc
        else acc.add_line kv.1) with
    | none => rw [hif] at h; cases h
    | some acc0 =>
      rw [hif] at h
      have h2 := (Option.some.inj h).symm
      rw [h2]
      show k ∈ acc0.fields.map (·.1) ↔ _
      by_cases hin : lookupAssoc acc.fields kv.1 ≠ none
      · rw [if_pos hin] at hif
        rw [← Option.some.inj hif]
        have hmem : kv.1 ∈ acc.fields.map (·.1) := by
          rw [← lookupAssoc_isSome_iff]
          cases hh : lookupAssoc acc.fields kv.1
          · exact absurd hh hin
          · simp
        constructor
        · exact Or.inl
        · rintro (hk | ⟨rfl, _⟩)
          · exact hk
          · exact hmem
      · rw [if_neg hin] at hif
        obtain ⟨d2, e2, hd2, he2, rfl⟩ := add_line_eq_some hif
        rw [show ({ acc with
              fields := setAssoc acc.fields kv.1 e2,
              rows := addKeyOnce acc.rows kv.1,
              buttons := addKeyOnce acc.buttons kv.1 } :
            DictWidget V).fields = setAssoc acc.fields kv.1 e2 from rfl,
          mem_map_fst_setAssoc, hd]
        simp

lemma displayStep_invalid_ne {V D : Type} {value : List (String × V)}
    {decode : String → D} {ev : D → List (String × V) → Bool}
    {acc acc' : DictWidget V} {kv : String × V}
    (h : DictWidget.displayStep value decode ev acc kv = some acc')
    (k : String) (hk : k ≠ kv.1) :
    lookupAssoc acc'.invalid k = lookupAssoc acc.invalid k := by
  unfold DictWidget.displayStep at h
  split at h
  · rw [← Option.some.inj h]
  · rename_i d hd
    cases hif : (if lookupAssoc acc.fields kv.1 ≠ none then some acc
        else acc.add_line kv.1) with
    | none => rw [hif] at h; cases h
    | some acc0 =>
      rw [hif] at h
      rw [(Option.some.inj h).symm]
      show lookupAssoc (setAssoc acc0.invalid kv.1 _) k = _
      rw [lookupAssoc_setAssoc_ne _ _ _ _ hk]
      by_cases hin : lookupAssoc acc.fields kv.1 ≠ none
      · rw [if_pos hin] at hif
        rw [← Option.some.inj hif]
      · rw [if_neg hin] at hif
        obtain ⟨d2, e2, _, _, rfl⟩ := add_line_eq_some hif
        rfl

lemma displayStep_invalid_self {V D : Type} {value : List (String × V)}
    {decode : String → D} {ev : D → List (String × V) → Bool}
    {acc acc' : DictWidget V} {kv : String × V}
    (h : DictWidget.displayStep value decode ev acc kv = some acc')
    (d : KeyDef) (hd : lookupAssoc acc.field_keys kv.1 = some d) :
    lookupAssoc acc'.invalid kv.1 =
      some (! ev (decode (pyOr d.domain "[]")) value) := by
  unfold DictWidget.displayStep at h
  split at h
  · rename_i hnone
    rw [hnone] at hd
    exact Option.noConfusion hd
  · rename_i d2 hd2
    rw [hd] at hd2
    cases Option.some.inj hd2
    cases hif : (if lookupAssoc acc.fields kv.1 ≠ none then some acc
        else acc.add_line kv.1) with
    | none => rw [hif] at h; cases h
    | some acc0 =>
      rw [hif] at h
      rw [(Option.some.inj h).symm]
      exact lookupAssoc_setAssoc_self ..

lemma displayLoop_field_keys {V D : Type} (value : List (String × V))
    (decode : String → D) (ev : D → List (String × V) → Bool)
    (l : List (String × V)) :
    ∀ (acc w3 : DictWidget V),
      l.foldlM (DictWidget.displayStep value decode ev) acc = some w3 →
      w3.field_keys = acc.field_keys := by
  induction l with
  | nil =>
    intro acc w3 h
    rw [List.foldlM_nil] at h
    rw [← Option.some.inj h]
  | cons a l ih =>
    intro acc w3 h
    rw [List.foldlM_cons] at h
    cases h1 : DictWidget.displayStep value decode ev acc a with
    | none => rw [h1] at h; cases h
    | some acc1 =>
      rw [h1] at h
      rw [ih acc1 w3 h, displayStep_field_keys h1]

lemma displayLoop_mem_fields {V D : Type} (value : List (String × V))
    (decode : String → D) (ev : D → List (String × V) → Bool)
    (l : List (String × V)) :
    ∀ (acc w3 : DictWidget V),
      l.foldlM (DictWidget.displayStep value decode ev) acc = some w3 →
      ∀ k, k ∈ w3.fields.map (·.1) ↔
        (k ∈ acc.fields.map (·.1) ∨
          (k ∈ l.map (·.1) ∧ (lookupAssoc acc.field_keys k).isSome)) := by
  induction l with
  | nil =>
    intro acc w3 h k
    rw [List.foldlM_nil] at h
    rw [← Option.some.inj h]
    simp
  | cons a l ih =>
    intro acc w3 h k
    rw [List.foldlM_cons] at h
    cases h1 : DictWidget.displayStep value decode ev acc a with
    | none => rw [h1] at h; cases h
    | some acc1 =>
      rw [h1] at h
      rw [ih acc1 w3 h k, displayStep_mem_fields h1 k,
        displayStep_field_keys h1]
      constructor
      · rintro ((hk | ⟨heq, hs⟩) | ⟨hl, hs⟩)
        · exact Or.inl hk
        · subst heq
          exact Or.inr ⟨by rw [List.map_cons]; exact List.mem_cons_self .., hs⟩
        · exact Or.inr ⟨by rw [List.map_cons]; exact List.mem_cons_of_mem _ hl,
            hs⟩
      · rintro (hk | ⟨hal, hs⟩)
        · exact Or.inl (Or.inl hk)
        · rw [List.map_cons, List.mem_cons] at hal
          cases hal with
          | inl heq =>
            subst heq
            exact Or.inl (Or.inr ⟨rfl, hs⟩)
          | inr hl => exact Or.inr ⟨hl, hs⟩

lemma displayLoop_invalid_not_mem {V D : Type} (value : List (String × V))
    (decode : String → D) (ev : D → List (String × V) → Bool)
    (l : List (String × V)) :
    ∀ (acc w3 : DictWidget V),
      l.foldlM (DictWidget.displayStep value decode ev) acc = some w3 →
      ∀ k, k ∉ l.map (·.1) →
        lookupAssoc w3.invalid k = lookupAssoc acc.invalid k := by
  induction l with
  | nil =>
    intro acc w3 h k _
    rw [List.foldlM_nil] at h
    rw [← Option.some.inj h]
  | cons a l ih =>
    intro acc w3 h k hk
    rw [List.map_cons, List.mem_cons] at hk
    push_neg at hk
    rw [List.foldlM_cons] at h
    cases h1 : DictWidget.displayStep value decode ev acc a with
    | none => rw [h1] at h; cases h
    | some acc1 =>
      rw [h1] at h
      rw [ih acc1 w3 h k hk.2, displayStep_invalid_ne h1 k hk.1]

lemma displayLoop_invalid {V D : Type} (value : List (String × V))
    (decode : String → D) (ev : D → List (String × V) → Bool)
    (l : List (String × V)) :
    ∀ (acc w3 : DictWidget V),
      l.foldlM (DictWidget.displayStep value decode ev) acc = some w3 →
      (l.map (·.1)).Nodup →
      ∀ k d, k ∈ l.map (·.1) → lookupAssoc acc.field_keys k = some d →
        lookupAssoc w3.invalid k =
          some (! ev (decode (pyOr d.domain "[]")) value) := by
  induction l with
  | nil =>
    intro acc w3 _ _ k d hk
    simp at hk
  | cons a l ih =>
    intro acc w3 h hnd k d hk hd
    rw [List.foldlM_cons] at h
    cases h1 : DictWidget.displayStep value decode ev acc a with
    | none => rw [h1] at h; cases h
    | some acc1 =>
      rw [h1] at h
      rw [List.map_cons, List.mem_cons] at hk
      rw [List.map_cons, List.nodup_cons] at hnd
      cases hk with
      | inl heq =>
        subst heq
        rw [displayLoop_invalid_not_mem value decode ev l acc1 w3 h a.1
          hnd.1]
        exact displayStep_invalid_self h1 d hd
      | inr hl =>
        have hd1 : lookupAssoc acc1.field_keys k = some d := by
          rw [displayStep_field_keys h1]
          exact hd
        exact ih acc1 w3 h hnd.2 k d hl hd1

lemma displayRemoveStale_field_keys {V : Type} (w : DictWidget V)
    (vk : List String) :
    (w.displayRemoveStale vk).field_keys = w.field_keys := by
  unfold DictWidget.displayRemoveStale
  exact foldl_sig_remove_field_keys _ w

lemma displayRemoveStale_invalid {V : Type} (w : DictWidget V)
    (vk : List String) :
    (w.displayRemoveStale vk).invalid = w.invalid := by
  unfold DictWidget.displayRemoveStale
  exact foldl_sig_remove_invalid _ w

lemma mem_fields_displayRemoveStale {V : Type} (w : DictWidget V)
    (vk : List String) (k : String) :
    k ∈ (w.displayRemoveStale vk).fields.map (·.1) ↔
      (k ∈ w.fields.map (·.1) ∧ k ∈ vk) := by
  unfold DictWidget.displayRemoveStale
  rw [mem_fields_foldl_sig_remove]
  constructor
  · rintro ⟨hf, hnr⟩
    refine ⟨hf, ?_⟩
    by_contra hvk
    refine hnr (List.mem_filter.mpr ⟨hf, ?_⟩)
    simp only [Bool.not_eq_true']
    rw [← Bool.not_eq_true]
    intro hc
    exact hvk (List.elem_iff.mp hc)
  · rintro ⟨hf, hvk⟩
    refine ⟨hf, fun hr => ?_⟩
    have h2 := (List.mem_filter.mp hr).2
    simp only [Bool.not_eq_true'] at h2
    rw [← Bool.not_eq_true] at h2
    exact h2 (List.elem_iff.mpr hvk)

/-! ## C5 -/

/-- C5: after `display` returns (field non-`None`, `self.fields`'s keys
within the schema as `add_line` guarantees), the set of keys with a
rendered row equals the set of keys of the field's client value that are
present in the field's schema (`self.field.keys` as display leaves it):
rows are added for value keys in the schema, rows whose key left the
value are removed, and a record-id change purges rows first — the final
key set is the same in every case. -/
theorem C5_display_rendered_keys {V D : Type} (w : DictWidget V)
    (rid : Option Nat) (value : List (String × V))
    (fetched : String → Option KeyDef) (decode : String → D)
    (ev : D → List (String × V) → Bool) (w' : DictWidget V)
    (hsub : ∀ k, k ∈ w.fields.map (·.1) →
      (lookupAssoc w.field_keys k).isSome)
    (hdisp : w.display rid value fetched decode ev = some w') :
    (∀ k, k ∈ w'.fields.map (·.1) ↔
      (k ∈ value.map (·.1) ∧ (lookupAssoc w'.field_keys k).isSome)) ∧
    (rid ≠ w.record_id → (w.displayPurge rid).fields = []) := by
  refine ⟨?_, fun hne => displayPurge_fields_nil w rid hne⟩
  intro k
  simp only [DictWidget.display] at hdisp
  split at hdisp
  · cases hdisp
  · rename_i w3 hfold
    have hw' := (Option.some.inj hdisp).symm
    have hfk3 : w3.field_keys =
        ((w.displayPurge rid).displayAddKeys (value.map (·.1))
          fetched).field_keys :=
      displayLoop_field_keys value decode ev _ _ w3 hfold
    have hsub2 : ∀ x,
        x ∈ ((w.displayPurge rid).displayAddKeys (value.map (·.1))
          fetched).fields.map (·.1) →
        (lookupAssoc ((w.displayPurge rid).displayAddKeys
          (value.map (·.1)) fetched).field_keys x).isSome := by
      intro x hx
      rw [displayAddKeys_fields] at hx
      have hxw := mem_fields_displayPurge_subset w rid x hx
      have hws := hsub x hxw
      have hps : (lookupAssoc (w.displayPurge rid).field_keys x).isSome := by
        rw [displayPurge_field_keys]
        exact hws
      rw [lookupAssoc_displayAddKeys_of_isSome _ _ _ _ hps]
      exact hps
    rw [hw', mem_fields_displayRemoveStale,
      displayLoop_mem_fields value decode ev _ _ w3 hfold k,
      mem_map_fst_mergeSort, displayRemoveStale_field_keys, hfk3]
    constructor
    · rintro ⟨hf2 | ⟨_, hs⟩, hv⟩
      · exact ⟨hv, hsub2 k hf2⟩
      · exact ⟨hv, hs⟩
    · rintro ⟨hv, hs⟩
      exact ⟨Or.inr ⟨hv, hs⟩, hv⟩

/-- A widget with the single `integer`-typed schema key `a`, displaying
its first record. -/
def widgetC5 : DictWidget Nat :=
  { DictWidget.initState Nat with
    field_keys := [("a", { type_ := "integer", label := "A", domain := none })] }

/-- `widgetC5` after `display` of record 1 with value `{a: 3}`. -/
def widgetC5d : DictWidget Nat :=
  { widgetC5 with
    fields := [("a", DictEntryKind.DictIntegerEntry)],
    buttons := ["a"],
    rows := ["a"],
    record_id := some 1,
    invalid := [("a", false)] }

/-- C5 witness: the theorem applied to a concrete `display` run — the
value `{a: 3}` with `a` in the schema yields exactly the rendered row
set `{a}`. -/
theorem C5_witness :
    widgetC5.display (some 1) [("a", 3)] (fun _ => none)
      (fun s => decide (s = "[]")) (fun d _ => d) = some widgetC5d ∧
    ("a" ∈ widgetC5d.fields.map (·.1) ↔
      ("a" ∈ ([("a", 3)] : List (String × Nat)).map (·.1) ∧
        (lookupAssoc widgetC5d.field_keys "a").isSome)) := by
  have hms : ([("a", 3)] : List (String × Nat)).mergeSort
      (fun a b => decide (a.1 ≤ b.1)) = [("a", 3)] :=
    List.mergeSort_singleton ..
  have hdisp : widgetC5.display (some 1) [("a", 3)] (fun _ => none)
      (fun s => decide (s = "[]")) (fun d _ => d) = some widgetC5d := by
    simp only [DictWidget.display, hms]
    rfl
  refine ⟨hdisp, ?_⟩
  exact (C5_display_rendered_keys widgetC5 (some 1) [("a", 3)]
    (fun _ => none) (fun s => decide (s = "[]")) (fun d _ => d) widgetC5d
    (fun k hk => by simp [widgetC5, DictWidget.initState] at hk) hdisp).1
    "a"

/-! ## C6 -/

/-- C6: during `display`, each rendered key's editor widget carries the
'invalid' style class exactly when the key's domain — the schema entry's
`domain` decoded by the PYSON decoder, with `'[]'` (the empty domain)
substituted when the entry has none — does not evaluate to true against
the full current dictionary value. -/
theorem C6_display_invalid_marks {V D : Type} (w : DictWidget V)
    (rid : Option Nat) (value : List (String × V))
    (fetched : String → Option KeyDef) (decode : String → D)
    (ev : D → List (String × V) → Bool) (w' : DictWidget V)
    (hnd : (value.map (·.1)).Nodup)
    (hdisp : w.display rid value fetched decode ev = some w') :
    ∀ k d, k ∈ value.map (·.1) → lookupAssoc w'.field_keys k = some d →
      lookupAssoc w'.invalid k =
        some (! ev (decode (pyOr d.domain "[]")) value) := by
  intro k d hk hd
  simp only [DictWidget.display] at hdisp
  split at hdisp
  · cases hdisp
  · rename_i w3 hfold
    have hw' := (Option.some.inj hdisp).symm
    have hfk3 : w3.field_keys =
        ((w.displayPurge rid).displayAddKeys (value.map (·.1))
          fetched).field_keys :=
      displayLoop_field_keys value decode ev _ _ w3 hfold
    have hd2 : lookupAssoc ((w.displayPurge rid).displayAddKeys
        (value.map (·.1)) fetched).field_keys k = some d := by
      rw [← hfk3, ← displayRemoveStale_field_keys w3 (value.map (·.1)),
        ← hw']
      exact hd
    have hinv : w'.invalid = w3.invalid := by
      rw [hw']
      exact displayRemoveStale_invalid w3 (value.map (·.1))
    rw [hinv]
    exact displayLoop_invalid value decode ev _ _ w3 hfold
      (nodup_map_fst_mergeSort value hnd) k d
      ((mem_map_fst_mergeSort value k).mpr hk) hd2

/-- A widget with one schema key `a` of type `integer` carrying the
(encoded) domain `DOM`. -/
def widgetC6 : DictWidget Nat :=
  { DictWidget.initState Nat with
    field_keys :=
      [("a", { type_ := "integer", label := "A", domain := some "DOM" })] }

/-- `widgetC6` after `display` of record 2 with value `{a: 7}`, under a
domain evaluator that rejects `DOM`: the row is marked invalid. -/
def widgetC6d : DictWidget Nat :=
  { widgetC6 with
    fields := [("a", DictEntryKind.DictIntegerEntry)],
    buttons := ["a"],
    rows := ["a"],
    record_id := some 2,
    invalid := [("a", true)] }

/-- C6 witness: the theorem applied to a concrete `display` run — key
`a`'s domain `DOM` does not evaluate to true against the value, so its
widget is marked 'invalid'. -/
theorem C6_witness :
    widgetC6.display (some 2) [("a", 7)] (fun _ => none) (fun s => s)
      (fun d _ => decide (d = "[]")) = some widgetC6d ∧
    lookupAssoc widgetC6d.invalid "a" = some true := by
  have hms : ([("a", 7)] : List (String × Nat)).mergeSort
      (fun a b => decide (a.1 ≤ b.1)) = [("a", 7)] :=
    List.mergeSort_singleton ..
  have hdisp : widgetC6.display (some 2) [("a", 7)] (fun _ => none)
      (fun s => s) (fun d _ => decide (d = "[]")) = some widgetC6d := by
    simp only [DictWidget.display, hms]
    rfl
  refine ⟨hdisp, ?_⟩
  have h := C6_display_invalid_marks widgetC6 (some 2) [("a", 7)]
    (fun _ => none) (fun s => s) (fun d _ => decide (d = "[]")) widgetC6d
    (by simp) hdisp "a"
    { type_ := "integer", label := "A", domain := some "DOM" }
    (by simp) rfl
  rw [h]
  rfl

/-! ## C9 -/

/-- C9: the numeric entries' `get_value` readers are total — each
returns `None` (never propagating the parser's exception) when the text
is empty or the locale parser rejects it, and the parsed number
otherwise. -/
theorem C9_numeric_entries_total {α : Type}
    (parse : String → Except Unit α) (txt : String) :
    (DictIntegerEntry.get_value parse txt = none ↔
      txt = "" ∨ parse txt = Except.error ()) ∧
    (∀ n, DictIntegerEntry.get_value parse txt = some n ↔
      txt ≠ "" ∧ parse txt = Except.ok n) ∧
    (DictFloatEntry.get_value parse txt = none ↔
      txt = "" ∨ parse txt = Except.error ()) ∧
    (∀ n, DictFloatEntry.get_value parse txt = some n ↔
      txt ≠ "" ∧ parse txt = Except.ok n) ∧
    (DictNumericEntry.get_value parse txt = none ↔
      txt = "" ∨ parse txt = Except.error ()) ∧
    (∀ n, DictNumericEntry.get_value parse txt = some n ↔
      txt ≠ "" ∧ parse txt = Except.ok n) := by
  by_cases h : txt = "" <;> cases hp : parse txt <;>
    simp [DictIntegerEntry.get_value, DictFloatEntry.get_value,
      DictNumericEntry.get_value, h, hp]

/-! ## C10 -/

/-- C10: `activate_modules` computes its cache name from
`cache_file_name` (falling back to the '-'-joined module names) plus
the setup function's qualified name when one is supplied; when
restoring that cache succeeds it returns the configuration immediately
(no drop/create, no module activation, no setup call, no backup); only
on a cache miss does it drop and recreate the database, activate the
modules, run the setup function, and back the cache up. -/
theorem C10_activate_modules_cache (modules : List String)
    (setup_qualname cache_file_name : Option String)
    (restore_hit : String → Bool) :
    (restore_hit (cacheName modules setup_qualname cache_file_name) =
        true →
      activate_modules modules setup_qualname cache_file_name
          restore_hit =
        [Effect.restore_db_cache
           (cacheName modules setup_qualname cache_file_name),
         Effect.get_config]) ∧
    (restore_hit (cacheName modules setup_qualname cache_file_name) =
        false →
      activate_modules modules setup_qualname cache_file_name
          restore_hit =
        [Effect.restore_db_cache
           (cacheName modules setup_qualname cache_file_name),
         Effect.drop_create, Effect.get_config,
         Effect.activate modules]
        ++ (match setup_qualname with
            | some q => [Effect.run_setup q]
            | none => [])
        ++ [Effect.backup_db_cache
              (cacheName modules setup_qualname cache_file_name)]) ∧
    (∀ s, s ≠ "" →
      cacheName modules setup_qualname (some s) =
        (match setup_qualname with
         | some q => s ++ "-" ++ q
         | none => s)) ∧
    cacheName modules setup_qualname none =
      (match setup_qualname with
       | some q => String.intercalate "-" modules ++ "-" ++ q
       | none => String.intercalate "-" modules) := by
  refine ⟨?_, ?_, ?_, ?_⟩
  · intro h
    simp [activate_modules, h]
  · intro h
    simp [activate_modules, h]
  · intro s hs
    cases setup_qualname <;> simp [cacheName, pyOr, hs]
  · cases setup_qualname <;> simp [cacheName, pyOr]

/-- C10 witness: the theorem applied to concrete runs — a cache hit
(only the restore and config effects) and a cache miss with a setup
function (drop/create, activation, setup and backup all appear, with
the qualname-suffixed cache name). -/
theorem C10_witness :
    activate_modules ["account", "product"] none none (fun _ => true) =
      [Effect.restore_db_cache "account-product", Effect.get_config] ∧
    activate_modules ["account"] (some "setup_chart") none
        (fun _ => false) =
      [Effect.restore_db_cache "account-setup_chart",
       Effect.drop_create, Effect.get_config,
       Effect.activate ["account"], Effect.run_setup "setup_chart",
       Effect.backup_db_cache "account-setup_chart"] := by
  constructor
  · have h := (C10_activate_modules_cache ["account", "product"] none
      none (fun _ => true)).1 rfl
    rw [h]
    rfl
  · have h := (C10_activate_modules_cache ["account"]
      (some "setup_chart") none (fun _ => false)).2.1 rfl
    rw [h]
    rfl

end TrytonMono
